import Mathlib

/-
  Verification of the process-supervision engine of starter-openclaw.

  The engine under study is the gateway lifecycle manager
  (createGatewayManager in gatewayManager.ts) together with the
  externalized process manager (processManager.ts).  Pure helpers are
  translated directly; interactions with the operating system (the proc
  table, signal delivery, socket probes, spawns) are abstracted as an
  oracle of observation functions, and every externally visible action
  performed by the engine is recorded in an effect trace.
-/

namespace OpenClaw

/-- Desired state as persisted on disk: "running" or "stopped". -/
inductive Desired where
  | running
  | stopped
  deriving DecidableEq, Repr

/-- PersistedGatewayState from gatewayManager.ts (lines 12-16).
    Timestamps are kept as abstract strings. -/
structure PersistedGatewayState where
  desired : Desired
  pid : Option Int
  updatedAt : String
  deriving DecidableEq, Repr

/-- defaultPersistedState (gatewayManager.ts lines 18-22): desired running, no pid. -/
def defaultPersistedState (nowIso : String) : PersistedGatewayState :=
  { desired := .running, pid := none, updatedAt := nowIso }

/-! ## A minimal model of JavaScript values produced by JSON.parse.

    Numeric values are modelled as integers together with a finiteness
    flag (JSON source text can denote values that overflow to Infinity;
    fractional values do not affect any branch the claims depend on). -/

/-- JavaScript value as produced by JSON.parse. -/
inductive JsValue where
  | vNull
  | vBool (b : Bool)
  | vNum (finite : Bool) (n : Int)
  | vStr (s : String)
  | vArr (elems : List JsValue)
  | vObj (fields : List (String × JsValue))

/-- Optional-chaining field access: parsed?.k yields undefined (none) unless
    parsed is an object carrying the field. -/
def getField (v : JsValue) (k : String) : Option JsValue :=
  match v with
  | .vObj fields => fields.lookup k
  | _ => none

/-- JavaScript String.prototype.includes: the needle occurs contiguously in
    s. -/
def jsIncludes (s needle : String) : Bool :=
  decide (needle.data <:+: s.data)

/-- JavaScript String.prototype.toLowerCase (over the ASCII range, which is
    all the engine compares). -/
def jsToLower (s : String) : String :=
  ⟨s.data.map Char.toLower⟩

/-- JavaScript String.prototype.trim: strip whitespace from both ends. -/
def jsTrim (s : String) : String :=
  ⟨((s.data.dropWhile Char.isWhitespace).reverse.dropWhile Char.isWhitespace).reverse⟩

/-- Numeric value of an all-digit string, as Number() computes it. -/
def digitsToNat (l : List Char) : Nat :=
  l.foldl (fun acc c => acc * 10 + (c.toNat - 48)) 0

/-- readPersistedState (gatewayManager.ts lines 24-44).
    The raw file content is `none` when readFileSync throws (missing file);
    `jsonParse` abstracts JSON.parse, returning `none` when it throws.
    A value of magnitude at least 2^1024 overflows the double range, so
    Number(raw) of such a digit string is not finite. -/
def readPersistedState (raw : Option String) (jsonParse : String → Option JsValue)
    (nowIso : String) : PersistedGatewayState :=
  match raw with
  | none => defaultPersistedState nowIso
  | some s =>
    let t := jsTrim s
    if t = "" then defaultPersistedState nowIso
    else if t.data.all (·.isDigit) then
      -- Backward-compat branch: the file is just a number, treat it as pid-only.
      let pidv := digitsToNat t.data
      { defaultPersistedState nowIso with
          pid := if (pidv : Int) < 2 ^ 1024 then some (pidv : Int) else none }
    else
      match jsonParse t with
      | none => defaultPersistedState nowIso
      | some parsed =>
        let desired : Desired :=
          match getField parsed "desired" with
          | some (.vStr d) => if d = "stopped" then .stopped else .running
          | _ => .running
        let pid : Option Int :=
          match getField parsed "pid" with
          | some (.vNum finite n) => if finite then some n else none
          | _ => none
        let updatedAt : String :=
          match getField parsed "updatedAt" with
          | some (.vStr u) => u
          | _ => nowIso
        { desired := desired, pid := pid, updatedAt := updatedAt }

/-! ## Readiness prober (canConnect / waitForReady, gatewayManager.ts lines 180-206). -/

/-- Events a probe socket can receive; each of connect / timeout / error is
    registered once on the socket. -/
inductive SocketEvent where
  | connect
  | timeout
  | error
  deriving DecidableEq, Repr

/-- Observable outcome of one canConnect call: whether the promise has been
    resolved (and with which value) and whether the socket was destroyed. -/
structure ProbeOutcome where
  resolved : Option Bool
  destroyed : Bool
  deriving DecidableEq, Repr

/-- Initial probe state: promise pending, socket live. -/
def probeInit : ProbeOutcome := { resolved := none, destroyed := false }

/-- done of canConnect (lines 183-190): destroys the socket and resolves the
    promise; a second resolution is ignored (the first value wins). -/
def probeDone (ok : Bool) (st : ProbeOutcome) : ProbeOutcome :=
  { resolved := some (st.resolved.getD ok), destroyed := true }

/-- Handler dispatch of canConnect: connect resolves true, timeout and
    error resolve false. -/
def probeStep (st : ProbeOutcome) (ev : SocketEvent) : ProbeOutcome :=
  match ev with
  | .connect => probeDone true st
  | .timeout => probeDone false st
  | .error => probeDone false st

/-- canConnect (lines 180-197) as a fold of the handler wiring over the
    sequence of socket events that actually fire. The bounded socket
    timeout guarantees the event list is nonempty in any real execution. -/
def runProbe (events : List SocketEvent) : ProbeOutcome :=
  events.foldl probeStep probeInit

/-- Elapsed milliseconds consumed by k iterations of the waitForReady loop
    starting at probe i: each runs a probe of duration d j plus a 250 ms
    sleep. -/
def spanElapsed (d : Nat → Nat) (i : Nat) : Nat → Nat
  | 0 => 0
  | k + 1 => d i + 250 + spanElapsed d (i + 1) k

/-- Elapsed milliseconds before probe k of the loop. -/
def elapsedBefore (d : Nat → Nat) (k : Nat) : Nat := spanElapsed d 0 k

/-- Loop body of waitForReady (lines 199-206): while elapsed time is below
    the budget, run probe i (duration d i, result p i); on success return
    true, otherwise sleep 250 ms and continue; once the budget is exhausted
    return false. -/
def waitGo (p : Nat → Bool) (d : Nat → Nat) (timeoutMs : Nat) (i elapsed : Nat) : Bool :=
  if h : elapsed < timeoutMs then
    if p i then true
    else waitGo p d timeoutMs (i + 1) (elapsed + d i + 250)
  else false
termination_by timeoutMs - elapsed
decreasing_by
  exact Nat.sub_lt_sub_left h (by omega)

/-- waitForReady (lines 199-206), probing from time zero. -/
def waitForReady (p : Nat → Bool) (d : Nat → Nat) (timeoutMs : Nat) : Bool :=
  waitGo p d timeoutMs 0 0

/-! ## Process table inspection (gatewayManager.ts lines 100-178).

    Reads of /proc are abstracted as observation functions: procState pid
    is the state letter parsed by getProcState, ppidRead pid the raw parent
    pid parsed by getProcPpid, commRead pid the raw comm file content. -/

/-- getProcPpid (lines 114-127): the parsed parent pid filtered to be finite
    and greater than 1. -/
def getProcPpid (ppidRead : Int → Option Int) (pid : Int) : Option Int :=
  (ppidRead pid).bind fun n => if 1 < n then some n else none

/-- getProcComm (lines 129-135): the trimmed comm file content, or none when
    the read fails or the result is empty. -/
def getProcComm (commRead : Int → Option String) (pid : Int) : Option String :=
  (commRead pid).bind fun s => if jsTrim s = "" then none else some (jsTrim s)

/-- isPidRunning (lines 137-151): pids at most 1 and zombies are not
    running; otherwise kill(pid, 0) decides. -/
def isPidRunning (procState : Int → Option String) (kill0Ok : Int → Bool)
    (pid : Int) : Bool :=
  if pid ≤ 1 then false
  else if procState pid = some "Z" then false
  else kill0Ok pid

/-- pidExists (line 153): the pid has a proc-table entry (zombies included). -/
def pidExists (procState : Int → Option String) (pid : Int) : Bool :=
  (procState pid).isSome

/-! ## Effects and the environment oracle. -/

/-- Spawn invocation variant: the preferred global launcher or the node
    fallback (resolveOpenclawCommand, lines 227-234). -/
inductive SpawnCmd where
  | primary
  | fallback
  deriving DecidableEq, Repr

/-- Externally visible actions of the engine, in program order.
    startCall marks an invocation of start() (used to count attempts);
    negative signal targets denote process groups, as in process.kill(-pid). -/
inductive Effect where
  | startCall (tok : Nat)
  | persistWrite (p : PersistedGatewayState)
  | runStopCmd
  | spawn (cmd : SpawnCmd)
  | sigterm (target : Int)
  | sigkill (target : Int)
  | probe (ok : Bool)
  | readyConfirmed
  deriving DecidableEq, Repr

/-- Environment oracle: outcomes of every interaction with the operating
    system during one engine operation.  procState / kill0Ok are the
    observations made before any signal is sent, procState2 / kill0Ok2 the
    observations made after the termination signals and waits, and
    procState3 the observation made after the zombie-reap sleep. -/
structure Oracle where
  nowIso : String
  procState : Int → Option String
  procState2 : Int → Option String
  procState3 : Int → Option String
  kill0Ok : Int → Bool
  kill0Ok2 : Int → Bool
  killOk : Int → Bool
  ppidRead : Int → Option Int
  commRead : Int → Option String
  stopCmdOk : Bool
  spawnPrimaryFails : Bool
  spawnPid : Option Int
  canConnect250 : Bool
  waitForReadyOk : Nat → Bool
  failOutput : String
  lockPidParse : String → Option Int

/-- killPidBestEffort (gatewayManager.ts lines 325-355), as the trace of
    signals it attempts.  The module constant detach is true, so the group
    (-pid) is signalled first, falling back to the pid itself if that kill
    throws; after waiting, a still-running pid is escalated to SIGKILL. -/
def killPidBestEffort (o : Oracle) (pid : Int) (timeoutMs : Nat) : List Effect :=
  if pid ≤ 1 then []
  else if o.procState pid = some "Z" then []
  else
    let term :=
      if o.killOk (-pid) then [Effect.sigterm (-pid)]
      else [Effect.sigterm (-pid), Effect.sigterm pid]
    let kill :=
      if isPidRunning o.procState2 o.kill0Ok2 pid then
        if o.killOk (-pid) then [Effect.sigkill (-pid)]
        else [Effect.sigkill (-pid), Effect.sigkill pid]
      else []
    term ++ kill

/-- Allow-list check of reapZombieByKillingParentBestEffort (lines 391-394):
    the lowercased parent comm must mention openclaw or node. -/
def commAllowed (commRead : Int → Option String) (ppid : Int) : Bool :=
  let comm := jsToLower ((getProcComm commRead ppid).getD "")
  jsIncludes comm "openclaw" || jsIncludes comm "node"

/-- reapZombieByKillingParentBestEffort (lines 384-405): only a pid observed
    as zombie is handled; its parent is resolved and signalled SIGTERM only
    when the allow-list recognizes it; the Bool reports whether the zombie
    disappeared after the reap sleep. -/
def reapZombieByKillingParentBestEffort (o : Oracle) (zombiePid : Int) :
    List Effect × Bool :=
  if o.procState zombiePid ≠ some "Z" then ([], false)
  else
    match getProcPpid o.ppidRead zombiePid with
    | none => ([], false)
    | some ppid =>
      if commAllowed o.commRead ppid then
        ([Effect.sigterm ppid], o.procState3 zombiePid ≠ some "Z")
      else ([], false)

/-- cleanupPidBestEffort (lines 357-371): zombies are routed to the
    parent-reap recovery; otherwise the pid is killed and, if it became a
    zombie afterwards, reaped through its parent as well. -/
def cleanupPidBestEffort (o : Oracle) (pid : Int) (timeoutMs : Nat) : List Effect :=
  if pid ≤ 1 then []
  else if o.procState pid = some "Z" then
    (reapZombieByKillingParentBestEffort o pid).1
  else
    killPidBestEffort o pid timeoutMs ++
      (if o.procState2 pid = some "Z" then
        (reapZombieByKillingParentBestEffort o pid).1
      else [])

/-- clearLockPidBestEffort (lines 407-421): run the graceful stop command;
    if it fails, fall back to the zombie reap for zombies and to
    killPidBestEffort otherwise. -/
def clearLockPidBestEffort (o : Oracle) (lockPid : Int) : List Effect :=
  if lockPid ≤ 1 then []
  else if o.stopCmdOk then [Effect.runStopCmd]
  else
    Effect.runStopCmd ::
      (if o.procState lockPid = some "Z" then
        (reapZombieByKillingParentBestEffort o lockPid).1
      else killPidBestEffort o lockPid 30000)

/-- parsePidFromLockMessage (lines 423-429): empty text yields no pid; the
    regex match itself is abstracted by the oracle. -/
def parsePidFromLockMessage (o : Oracle) (text : String) : Option Int :=
  if text = "" then none else o.lockPidParse text

/-! ## The in-process lifecycle state machine (createGatewayManager,
    gatewayManager.ts lines 290-642). -/

/-- GatewayState (line 65). -/
inductive GatewayState where
  | stopped
  | starting
  | running
  | stopping
  deriving DecidableEq, Repr

/-- lastExit record (line 74); the source field at is renamed atIso, since
    at is reserved in Lean. -/
structure ExitInfo where
  code : Option Int
  signal : Option String
  atIso : String
  deriving DecidableEq, Repr

/-- ChildProcess handle: the pid may be absent when the spawn failed to
    allocate one (proc is still assigned the handle object, line 495). -/
structure Handle where
  pid : Option Int
  deriving DecidableEq, Repr

/-- Mutable closure state of createGatewayManager (lines 299-312).
    startingTok and stopTok are the identities of the in-flight starting
    and stopPromise promises. -/
structure MgrState where
  desired : Bool
  proc : Option Handle
  startingTok : Option Nat
  stopTok : Option Nat
  stopping : Bool
  state : GatewayState
  startedAt : Option String
  readyAt : Option String
  restartCount : Nat
  lastExit : Option ExitInfo
  lastError : Option String
  lastStartOutput : Option String
  adoptedPid : Option Int
  deriving DecidableEq, Repr

/-- World: the in-memory manager state plus the parsed content of the
    persisted state file (reads and writes of which always succeed here;
    claim C10 treats the corrupted-file cases separately). -/
structure World where
  mgr : MgrState
  file : PersistedGatewayState
  deriving DecidableEq, Repr

/-- Initial closure state (lines 299-312): desired from the persisted
    record, everything stopped, restartCount zero, and the persisted pid
    adopted only when it is observed running. -/
def initialMgrState (persisted : PersistedGatewayState)
    (procState : Int → Option String) (kill0Ok : Int → Bool) : MgrState :=
  { desired := persisted.desired = .running
    proc := none
    startingTok := none
    stopTok := none
    stopping := false
    state := .stopped
    startedAt := none
    readyAt := none
    restartCount := 0
    lastExit := none
    lastError := none
    lastStartOutput := none
    adoptedPid :=
      match persisted.pid with
      | some p => if isPidRunning procState kill0Ok p then some p else none
      | none => none }

/-- Exit observer registered by start() (lines 506-519): records the exit,
    clears the handle, the adopted pid, readyAt and the persisted pid, and
    transitions to stopped; when desired is running and no planned stop is
    underway it increments restartCount and schedules a restart after
    min(15000, 500 * restartCount) ms (the returned delay). -/
def onExit (m : MgrState) (file : PersistedGatewayState) (code : Option Int)
    (signal : Option String) (nowIso : String) :
    MgrState × PersistedGatewayState × Option Nat :=
  let m1 : MgrState :=
    { m with
        lastExit := some { code := code, signal := signal, atIso := nowIso }
        proc := none
        adoptedPid := none
        readyAt := none
        state := .stopped }
  let file1 : PersistedGatewayState := { file with pid := none, updatedAt := nowIso }
  if m.desired ∧ ¬m.stopping then
    let rc := m.restartCount + 1
    ({ m1 with restartCount := rc }, file1, some (min 15000 (500 * rc)))
  else (m1, file1, none)

/-- Outcome of a stop() call: joining the promise already in flight, or
    completing a new one. -/
inductive StopOutcome where
  | joined (tok : Nat)
  | completed (tok : Nat)
  deriving DecidableEq, Repr

/-- Outcome of a start() call: returning because a handle already exists,
    joining the in-flight attempt, or completing a new attempt. -/
inductive StartOutcome where
  | joined (tok : Nat)
  | completed (tok : Nat)
  | noop
  deriving DecidableEq, Repr

/-- Outcome of ensureRunning(): normal return or a thrown fatal error. -/
inductive RunResult where
  | ok
  | errored
  deriving DecidableEq, Repr

/-- Synchronous entry of stop() (lines 577-583): desired false, stopping
    true, state stopping, persisted desired stopped, stopPromise created.
    This is the state visible to concurrent callers while the stop body is
    suspended at its first await. -/
def stopEnter (w : World) (o : Oracle) (tok : Nat) : World :=
  { mgr :=
      { w.mgr with
          desired := false
          stopping := true
          state := .stopping
          stopTok := some tok }
    file := { w.file with desired := .stopped, updatedAt := o.nowIso } }

/-- targetPid of stop() (line 583): proc?.pid ?? persisted pid ?? adoptedPid. -/
def stopTargetPid (w : World) : Option Int :=
  match w.mgr.proc with
  | some h =>
    match h.pid with
    | some pid => some pid
    | none =>
      match w.file.pid with
      | some fp => some fp
      | none => w.mgr.adoptedPid
  | none =>
    match w.file.pid with
    | some fp => some fp
    | none => w.mgr.adoptedPid

/-- Signal trace of the stop() body (lines 585-624): the graceful stop
    command, then group-then-direct SIGTERM on a live handle escalating to
    SIGKILL if the pid still exists after the wait, or cleanupPidBestEffort
    on an adopted target pid.  A zero pid is falsy in the source and is
    never signalled. -/
def stopBodyEffects (w : World) (o : Oracle) (shutdownTimeoutMs : Nat) : List Effect :=
  let e0 := [Effect.runStopCmd]
  match w.mgr.proc with
  | some h =>
    (match h.pid with
     | some pid =>
       if pid = 0 then e0
       else
         let term :=
           if o.killOk (-pid) then [Effect.sigterm (-pid)]
           else [Effect.sigterm (-pid), Effect.sigterm pid]
         let kill :=
           if pidExists o.procState2 pid then
             if o.killOk (-pid) then [Effect.sigkill (-pid)]
             else [Effect.sigkill (-pid), Effect.sigkill pid]
           else []
         e0 ++ term ++ kill
     | none => e0)
  | none =>
    match stopTargetPid w with
    | some tpid =>
      if tpid = 0 then e0
      else if pidExists o.procState tpid then
        e0 ++ cleanupPidBestEffort o tpid shutdownTimeoutMs
      else e0
    | none => e0

/-- Finally block of the stop() body plus the stopPromise finalizer
    (lines 626-636): handle and adopted pid cleared, state stopped,
    readyAt null, persisted pid null, stopping false, stopPromise null.
    It runs on every path out of the body. -/
def stopFinal (w : World) (o : Oracle) : World :=
  { mgr :=
      { w.mgr with
          proc := none
          adoptedPid := none
          state := .stopped
          readyAt := none
          stopping := false
          stopTok := none }
    file := { w.file with pid := none, updatedAt := o.nowIso } }

/-- stop() (lines 573-639) as a big step: concurrent callers join the
    in-flight promise; otherwise the entry, body and finally run. -/
def stop (w : World) (o : Oracle) (shutdownTimeoutMs : Nat) (tok : Nat) :
    World × List Effect × StopOutcome :=
  match w.mgr.stopTok with
  | some t => (w, [], .joined t)
  | none =>
    let w1 := stopEnter w o tok
    (stopFinal w1 o,
      Effect.persistWrite w1.file :: stopBodyEffects w1 o shutdownTimeoutMs,
      .completed tok)

/-- Existing-pid neutralization at the top of the start() body
    (lines 444-456): when a persisted pid exists, run the graceful stop
    command, fall back to direct cleanup when that fails and the pid still
    exists, then clear the persisted pid. -/
def startCleanupExisting (w : World) (o : Oracle) : World × List Effect :=
  match w.file.pid with
  | some existingPid =>
    if existingPid = 0 then (w, [])
    else
      let eff :=
        if o.stopCmdOk then [Effect.runStopCmd]
        else
          Effect.runStopCmd ::
            (if pidExists o.procState existingPid then
              cleanupPidBestEffort o existingPid 15000
            else [])
      let file1 := { w.file with pid := none, updatedAt := o.nowIso }
      ({ w with file := file1 }, eff ++ [Effect.persistWrite file1])
  | none => (w, [])

/-- Spawn phase of the start() body (lines 458-500): spawn the primary
    command, fall back if it died within the 200 ms grace period, record
    the handle, and, when a pid was allocated, adopt it and persist it
    together with desired running. -/
def startSpawn (w : World) (o : Oracle) : World × List Effect :=
  let spawnEffs :=
    if o.spawnPrimaryFails then [Effect.spawn .primary, Effect.spawn .fallback]
    else [Effect.spawn .primary]
  let m1 := { w.mgr with proc := some { pid := o.spawnPid } }
  match o.spawnPid with
  | some pid =>
    if pid = 0 then ({ w with mgr := m1 }, spawnEffs)
    else
      let file1 := { w.file with desired := .running, pid := some pid, updatedAt := o.nowIso }
      ({ mgr := { m1 with adoptedPid := some pid }, file := file1 },
        spawnEffs ++ [Effect.persistWrite file1])
  | none => ({ w with mgr := m1 }, spawnEffs)

/-- Body of the starting promise (lines 438-519): enter starting, clean up
    any previously persisted pid, then spawn and persist the new pid.
    Registering the exit and error observers produces no effect. -/
def startBody (w : World) (o : Oracle) : World × List Effect :=
  let w0 : World :=
    { w with
        mgr :=
          { w.mgr with
              state := .starting
              lastError := none
              startedAt := some o.nowIso
              readyAt := none } }
  ((startSpawn (startCleanupExisting w0 o).1 o).1,
    (startCleanupExisting w0 o).2 ++ (startSpawn (startCleanupExisting w0 o).1 o).2)

/-- Synchronous prefix of start() (lines 432-433): set the desired flag and
    persist desired running before anything else. -/
def startPre (w : World) (o : Oracle) : World :=
  { mgr := { w.mgr with desired := true }
    file := { w.file with desired := Desired.running, updatedAt := o.nowIso } }

/-- World seen after the optional await of an in-flight stop (line 435):
    when a stopPromise exists its remaining steps run to completion. -/
def startAwaited (w : World) (o : Oracle) : World :=
  if (startPre w o).mgr.stopTok.isSome then stopFinal (startPre w o) o
  else startPre w o

/-- World in which the starting-promise body runs (line 438). -/
def startRun (w : World) (o : Oracle) (tok : Nat) : World :=
  { startAwaited w o with
      mgr := { (startAwaited w o).mgr with startingTok := some tok } }

/-- start() (lines 431-525) as a big step: persist desired running first;
    return when a handle exists; await an in-flight stop (its finally runs);
    join an in-flight start; otherwise run the body under a fresh starting
    promise and clear it afterwards. -/
def start (w : World) (o : Oracle) (tok : Nat) : World × List Effect × StartOutcome :=
  let e0 := [Effect.startCall tok, Effect.persistWrite (startPre w o).file]
  if (startPre w o).mgr.proc.isSome then (startPre w o, e0, .noop)
  else
    match (startAwaited w o).mgr.startingTok with
    | some t => (startAwaited w o, e0, .joined t)
    | none =>
      ({ (startBody (startRun w o tok) o).1 with
          mgr := { (startBody (startRun w o tok) o).1.mgr with startingTok := none } },
        e0 ++ (startBody (startRun w o tok) o).2, .completed tok)

/-- Lock-contention heuristic of ensureRunning (lines 556-560). -/
def looksLikeLock (out : String) : Bool :=
  jsIncludes out "gateway already running" || jsIncludes out "lock timeout" ||
    jsIncludes out "openclaw gateway stop" || jsIncludes (jsToLower out) "already running"

/-- Offending pid chosen by the lock-recovery path (line 563):
    parsePidFromLockMessage(out) || persisted pid, with the JavaScript
    falsiness of a zero pid. -/
def lockPidChoice (o : Oracle) (out : String) (filePid : Option Int) : Option Int :=
  match parsePidFromLockMessage o out with
  | some lp => if lp = 0 then filePid else some lp
  | none => filePid

/-- Effects of `if (lockPid) await clearLockPidBestEffort(lockPid)`
    (line 564). -/
def lockRecoveryEffects (o : Oracle) (lockPid : Option Int) : List Effect :=
  match lockPid with
  | some lp => if lp = 0 then [] else clearLockPidBestEffort o lp
  | none => []

/-- Retry loop of ensureRunning (lines 545-570), unrolled to its two
    iterations: start and wait for readiness; on a first failure whose
    captured output matches the lock heuristic, clear the offending pid and
    the persisted record and retry once; any other failure throws. -/
def ensureAttempts (w : World) (o : Oracle) (tok : Nat) : World × List Effect × RunResult :=
  let w1 := (start w o tok).1
  let e1 := (start w o tok).2.1
  if o.waitForReadyOk 0 then
    ({ w1 with mgr := { w1.mgr with readyAt := some o.nowIso, state := .running } },
      e1 ++ [Effect.readyConfirmed], .ok)
  else
    let out := o.failOutput
    if looksLikeLock out then
      let eClear := lockRecoveryEffects o (lockPidChoice o out w1.file.pid)
      let file2 := { w1.file with pid := none, updatedAt := o.nowIso }
      let w2 : World := { w1 with file := file2 }
      let w3 := (start w2 o (tok + 1)).1
      let e3 := (start w2 o (tok + 1)).2.1
      if o.waitForReadyOk 1 then
        ({ w3 with mgr := { w3.mgr with readyAt := some o.nowIso, state := .running } },
          e1 ++ eClear ++ [Effect.persistWrite file2] ++ e3 ++ [Effect.readyConfirmed], .ok)
      else
        (w3, e1 ++ eClear ++ [Effect.persistWrite file2] ++ e3, .errored)
    else (w1, e1, .errored)

/-- ensureRunning (lines 527-571) as a big step: no-op while running; await
    an in-flight stop; honor a persisted desired stopped; adopt an already
    listening gateway; otherwise run the retry loop. -/
def ensureRunning (w : World) (o : Oracle) (tok : Nat) : World × List Effect × RunResult :=
  if w.mgr.state = .running then (w, [], .ok)
  else
    let w1 := if w.mgr.stopTok.isSome then stopFinal w o else w
    if w1.file.desired = .stopped then
      ({ w1 with mgr := { w1.mgr with desired := false, state := .stopped } }, [], .ok)
    else
      let probeEffs := [Effect.probe o.canConnect250]
      if o.canConnect250 then
        let adopted :=
          match w1.file.pid with
          | some p =>
            if p ≠ 0 ∧ isPidRunning o.procState o.kill0Ok p then some p
            else w1.mgr.adoptedPid
          | none => w1.mgr.adoptedPid
        ({ w1 with
            mgr :=
              { w1.mgr with
                  state := .running
                  readyAt := some (w1.mgr.readyAt.getD o.nowIso)
                  adoptedPid := adopted } },
          probeEffs, .ok)
      else
        ((ensureAttempts w1 o tok).1,
          probeEffs ++ (ensureAttempts w1 o tok).2.1,
          (ensureAttempts w1 o tok).2.2)

/-! ## The externalized process manager (processManager.ts).

    Its reconciliation loop spawns the gateway in startChild and stops it in
    stopChild.  Child handles are identified by a Nat id; the module
    variables proc and restartCount plus the published status record form
    the state. -/

/-- Status record written by the process manager (processManager.ts
    lines 255-264); the fixed target and startedAt are omitted. -/
structure PMStatus where
  state : GatewayState
  pid : Option Int
  readyAt : Option String
  restartCount : Nat
  lastExit : Option ExitInfo
  lastError : Option String
  deriving DecidableEq, Repr

/-- Module state of the process manager main loop (lines 373-376). -/
structure PMState where
  proc : Option Nat
  restartCount : Nat
  status : PMStatus
  deriving DecidableEq, Repr

/-- Exit listener registered by startChild (processManager.ts lines
    466-482): whenever the exiting child is still the current handle, the
    handle is cleared and restartCount is incremented — with no check of
    the desired state and no planned-stop guard. -/
def startChildExitHandler (p : Nat) (e : ExitInfo) (s : PMState) : PMState :=
  if s.proc = some p then
    let rc := s.restartCount + 1
    { proc := none
      restartCount := rc
      status :=
        { s.status with
            state := .stopped
            pid := none
            readyAt := none
            restartCount := rc
            lastExit := some e } }
  else s

/-- Exit listener registered by stopChild (processManager.ts lines
    393-406): clears the handle and publishes the stopped status. -/
def stopChildExitHandler (e : ExitInfo) (s : PMState) : PMState :=
  { s with
      proc := none
      status :=
        { s.status with
            state := .stopped
            pid := none
            readyAt := none
            lastExit := some e } }

/-- Exit event of the child while a planned stopChild is in progress.
    Node fires exit listeners in registration order: the startChild
    listener (registered at spawn time) runs before the once-listener
    stopChild registered later, and it still sees proc === p. -/
def exitEventDuringStop (p : Nat) (e : ExitInfo) (s : PMState) : PMState :=
  stopChildExitHandler e (startChildExitHandler p e s)

/-! ## The file-based gateway client (gatewayClient.ts).

    It spawns nothing itself: it writes the desired state to the control
    file and polls the status file published by the process manager. -/

/-- ControlState: the control-file record shared by the client and the
    process manager (gatewayClient.ts lines 47-58). -/
structure ControlState where
  desired : Desired
  updatedAt : String
  deriving DecidableEq, Repr

/-- Externally visible actions of the client. -/
inductive ClientEffect where
  | controlWrite (c : ControlState)
  deriving DecidableEq, Repr

/-- writeControl (gatewayClient.ts lines 47-58): whole-record overwrite of
    the control file (best-effort; modelled as succeeding). -/
def writeControl (nowIso : String) (desired : Desired) : ControlState :=
  { desired := desired, updatedAt := nowIso }

/-- Loop of waitForState (gatewayClient.ts lines 62-70): while the budget
    lasts, read the published status every 250 ms and return true when it
    equals the target; after the budget, one final read decides.  statusAt
    i is the state read at the i-th poll. -/
def waitStateGo (statusAt : Nat → GatewayState) (target : GatewayState)
    (timeoutMs : Nat) (i elapsed : Nat) : Bool :=
  if h : elapsed < timeoutMs then
    if statusAt i = target then true
    else waitStateGo statusAt target timeoutMs (i + 1) (elapsed + 250)
  else decide (statusAt i = target)
termination_by timeoutMs - elapsed
decreasing_by
  exact Nat.sub_lt_sub_left h (by omega)

/-- waitForState (gatewayClient.ts lines 62-70), polling from time zero. -/
def waitForState (statusAt : Nat → GatewayState) (target : GatewayState)
    (timeoutMs : Nat) : Bool :=
  waitStateGo statusAt target timeoutMs 0 0

/-- createGatewayClient().ensureRunning (gatewayClient.ts lines 78-82):
    write desired running over whatever the control file held (the prior
    record is never read), then wait up to POLL_TIMEOUT_MS = 60000 ms for
    the published state to become running; a timeout throws. -/
def clientEnsureRunning (prior : ControlState) (statusAt : Nat → GatewayState)
    (nowIso : String) : ControlState × List ClientEffect × RunResult :=
  let c1 := writeControl nowIso .running
  (c1, [ClientEffect.controlWrite c1],
    if waitForState statusAt .running 60000 then .ok else .errored)

/-! ## Concrete fixtures for witnesses and counterexamples. -/

/-- Oracle of a quiet environment: empty proc table, all kills succeed,
    the graceful stop command works, the spawn allocates pid 42, nothing
    answers probes, and the captured failure output is empty. -/
def oracleA : Oracle :=
  { nowIso := "T"
    procState := fun _ => none
    procState2 := fun _ => none
    procState3 := fun _ => none
    kill0Ok := fun _ => false
    kill0Ok2 := fun _ => false
    killOk := fun _ => true
    ppidRead := fun _ => none
    commRead := fun _ => none
    stopCmdOk := true
    spawnPrimaryFails := false
    spawnPid := some 42
    canConnect250 := false
    waitForReadyOk := fun _ => false
    failOutput := ""
    lockPidParse := fun _ => none }

/-- Manager state of a freshly created manager (all fields at their initial
    values, desired true). -/
def mgrA : MgrState :=
  { desired := true
    proc := none
    startingTok := none
    stopTok := none
    stopping := false
    state := .stopped
    startedAt := none
    readyAt := none
    restartCount := 0
    lastExit := none
    lastError := none
    lastStartOutput := none
    adoptedPid := none }

/-- Persisted record with desired running and no pid. -/
def fileA : PersistedGatewayState :=
  { desired := .running, pid := none, updatedAt := "T" }

/-- Concrete exit information. -/
def exitA : ExitInfo := { code := some 0, signal := none, atIso := "T2" }

/-- Process-manager state holding child handle 1, pid 42, running, with
    restartCount zero. -/
def pmStateA : PMState :=
  { proc := some 1
    restartCount := 0
    status :=
      { state := .running
        pid := some 42
        readyAt := some "T"
        restartCount := 0
        lastExit := none
        lastError := none } }

/-- Oracle with a zombie at pid 9 whose parent 7 is an allow-listed
    openclaw process. -/
def oracleZ : Oracle :=
  { oracleA with
      procState := fun p => if p = 9 then some "Z" else none
      ppidRead := fun p => if p = 9 then some 7 else none
      commRead := fun p => if p = 7 then some "openclaw-gateway" else none }

/-- Persisted record with desired stopped and no pid. -/
def fileStopped : PersistedGatewayState :=
  { desired := .stopped, pid := none, updatedAt := "T" }

/-- Manager state currently running (for instance after adopting an
    external listener), with no handle of its own. -/
def mgrRunning : MgrState :=
  { mgrA with state := .running, readyAt := some "T" }

/-- World of a manager running its own child with pid 42. -/
def worldRun42 : World :=
  { mgr := { mgrA with state := .running, proc := some { pid := some 42 }, readyAt := some "T" }
    file := { desired := .running, pid := some 42, updatedAt := "T" } }

/-- Test for the start-invocation marker. -/
def isStartCallB (e : Effect) : Bool :=
  match e with
  | .startCall _ => true
  | _ => false

/-- Number of start() invocations recorded in a trace. -/
def countStartCalls (l : List Effect) : Nat :=
  (l.filter isStartCallB).length

/-- Test for the three signal-like effects (graceful stop command and
    signals). -/
def isSignal (e : Effect) : Bool :=
  match e with
  | .runStopCmd => true
  | .sigterm _ => true
  | .sigkill _ => true
  | _ => false

/-- Test for effects that are neither a start marker nor a readiness
    confirmation. -/
def noMark (e : Effect) : Bool :=
  match e with
  | .startCall _ => false
  | .readyConfirmed => false
  | _ => true

/-- Probe schedule for the C9 witness: the second probe succeeds, each
    probe takes 100 ms. -/
def pB : Nat → Bool := fun i => i == 1

/-- Probe durations for the C9 witness. -/
def dB : Nat → Nat := fun _ => 100

/-- Degenerate parser for the C10 witness: every input fails to parse. -/
def parse0 : String → Option JsValue := fun _ => none

/-- Control-file record persisted as desired stopped. -/
def controlStopped : ControlState := { desired := .stopped, updatedAt := "T0" }

/-- Status oracle of a process manager that reports running from the first
    poll on (it spawned the gateway in response to the control write). -/
def statusRunA : Nat → GatewayState := fun _ => .running

/-! ## Claims. -/

/-- C3: on an unplanned exit with desired running, the restart delay is
    exactly min(15000, 500 * restartCount) computed with the incremented
    restartCount, so three consecutive unplanned exits from a fresh manager
    are delayed by 500, 1000 and 1500 ms — linear growth capped at 15 s. -/
theorem C3_backoff (m : MgrState) (file : PersistedGatewayState) (code : Option Int)
    (signal : Option String) (nowIso : String)
    (hd : m.desired = true) (hs : m.stopping = false) :
    (onExit m file code signal nowIso).2.2 = some (min 15000 (500 * (m.restartCount + 1)))
    ∧ (onExit m file code signal nowIso).1.restartCount = m.restartCount + 1
    ∧ (m.restartCount = 0 →
        (onExit m file code signal nowIso).2.2 = some 500
        ∧ (onExit (onExit m file code signal nowIso).1 file code signal nowIso).2.2 = some 1000
        ∧ (onExit (onExit (onExit m file code signal nowIso).1 file code signal
            nowIso).1 file code signal nowIso).2.2 = some 1500) := by
  refine ⟨?_, ?_, ?_⟩
  · simp [onExit, hd, hs]
  · simp [onExit, hd, hs]
  · intro h0
    refine ⟨?_, ?_, ?_⟩
    · simp [onExit, hd, hs, h0]
    · simp [onExit, hd, hs, h0]
    · simp [onExit, hd, hs, h0]

/-- Witness for C3 at a fresh manager state. -/
theorem C3_backoff_witness :
    mgrA.desired = true ∧ mgrA.stopping = false ∧
      (onExit mgrA fileA none none "T").2.2 =
        some (min 15000 (500 * (mgrA.restartCount + 1))) :=
  ⟨rfl, rfl, (C3_backoff mgrA fileA none none "T" rfl rfl).1⟩

/-- C1 counterexample: in the externalized process manager, the exit of the
    current child during a planned stopChild still increments restartCount
    (the startChild exit listener fires first and has no planned-stop
    guard), so the claimed invariant fails there. -/
theorem C1_counterexample :
    pmStateA.restartCount = 0
    ∧ (exitEventDuringStop 1 exitA pmStateA).restartCount = 1
    ∧ (exitEventDuringStop 1 exitA pmStateA).status.restartCount = 1 := by
  decide

/-- C1 amended: in the in-process state machine, an exit increments
    restartCount iff desired is running and no planned stop is underway —
    in particular never during a stop() (which sets stopping on entry) —
    while in the externalized process manager every exit of the current
    child handle increments restartCount, planned stops included. -/
theorem C1_amended (m : MgrState) (file : PersistedGatewayState) (code : Option Int)
    (signal : Option String) (nowIso : String) (w : World) (o : Oracle) (tok : Nat)
    (s : PMState) (p : Nat) (e : ExitInfo) (hp : s.proc = some p) :
    ((onExit m file code signal nowIso).1.restartCount = m.restartCount + 1
      ↔ (m.desired = true ∧ m.stopping = false))
    ∧ (¬(m.desired = true ∧ m.stopping = false) →
        (onExit m file code signal nowIso).1.restartCount = m.restartCount)
    ∧ (onExit (stopEnter w o tok).mgr file code signal nowIso).1.restartCount
        = (stopEnter w o tok).mgr.restartCount
    ∧ (startChildExitHandler p e s).restartCount = s.restartCount + 1
    ∧ (exitEventDuringStop p e s).restartCount = s.restartCount + 1 := by
  refine ⟨?_, ?_, ?_, ?_, ?_⟩
  · by_cases hc : m.desired = true ∧ ¬m.stopping = true
    · simp [onExit, hc.1, hc.2]
    · simp only [onExit]
      rw [if_neg]
      · simp only []
        constructor
        · intro h
          omega
        · intro h
          exact absurd ⟨h.1, by simp [h.2]⟩ hc
      · exact hc
  · intro hc
    simp only [onExit]
    rw [if_neg]
    intro hcon
    exact hc ⟨hcon.1, by simpa using hcon.2⟩
  · simp [onExit, stopEnter]
  · simp [startChildExitHandler, hp]
  · simp [exitEventDuringStop, stopChildExitHandler, startChildExitHandler, hp]

/-- Witness for C1 amended at concrete states. -/
theorem C1_amended_witness :
    pmStateA.proc = some 1 ∧
      (startChildExitHandler 1 exitA pmStateA).restartCount = pmStateA.restartCount + 1 :=
  ⟨rfl, (C1_amended mgrA fileA none none "T"
    { mgr := mgrA, file := fileA } oracleA 0 pmStateA 1 exitA rfl).2.2.2.1⟩

/-- C4: concurrent stop() callers join the one in-flight stop promise, and
    every completed stop — whatever the outcomes of its kill and wait
    steps — ends with state stopped, the handle and adopted pid cleared,
    readyAt null and the persisted pid null. -/
theorem C4_stop (w : World) (o : Oracle) (st tok : Nat) :
    (∀ t, w.mgr.stopTok = some t → stop w o st tok = (w, [], .joined t))
    ∧ (w.mgr.stopTok = none →
        (stop w o st tok).2.2 = .completed tok
        ∧ (stop w o st tok).1.mgr.state = .stopped
        ∧ (stop w o st tok).1.mgr.proc = none
        ∧ (stop w o st tok).1.mgr.adoptedPid = none
        ∧ (stop w o st tok).1.mgr.readyAt = none
        ∧ (stop w o st tok).1.file.pid = none
        ∧ (stop w o st tok).1.mgr.stopTok = none) := by
  constructor
  · intro t ht
    simp [stop, ht]
  · intro hn
    simp [stop, hn, stopFinal, stopEnter]

/-- Witness for C4: a world with no stop in flight completes with the
    floor postconditions. -/
theorem C4_stop_witness :
    ({ mgr := mgrA, file := fileA } : World).mgr.stopTok = none ∧
      (stop { mgr := mgrA, file := fileA } oracleA 30000 5).1.mgr.state = .stopped :=
  ⟨rfl, ((C4_stop { mgr := mgrA, file := fileA } oracleA 30000 5).2 rfl).2.1⟩

/-- C7: a pid observed as zombie is never signalled directly: the kill
    routine returns without any effect, the cleanup routine delegates to
    the parent-reap recovery, which signals only a parent whose command
    name the allow-list recognizes and abandons recovery (signalling
    nobody) otherwise. -/
theorem C7_zombie (o : Oracle) (pid : Int) (t : Nat) (hpid : 1 < pid)
    (hz : o.procState pid = some "Z") :
    killPidBestEffort o pid t = []
    ∧ cleanupPidBestEffort o pid t = (reapZombieByKillingParentBestEffort o pid).1
    ∧ (∀ e ∈ (reapZombieByKillingParentBestEffort o pid).1,
        ∃ pp, getProcPpid o.ppidRead pid = some pp
          ∧ commAllowed o.commRead pp = true ∧ e = Effect.sigterm pp)
    ∧ ((∀ pp, getProcPpid o.ppidRead pid = some pp → commAllowed o.commRead pp = false) →
        reapZombieByKillingParentBestEffort o pid = ([], false)) := by
  have hn : ¬(pid ≤ 1) := by omega
  refine ⟨?_, ?_, ?_, ?_⟩
  · simp [killPidBestEffort, hn, hz]
  · simp [cleanupPidBestEffort, hn, hz]
  · intro e he
    simp only [reapZombieByKillingParentBestEffort, hz] at he
    rcases hpp : getProcPpid o.ppidRead pid with _ | pp
    · simp [hpp] at he
    · rw [hpp] at he
      by_cases hc : commAllowed o.commRead pp = true
      · simp [hc] at he
        exact ⟨pp, rfl, hc, he⟩
      · simp [Bool.not_eq_true] at hc
        simp [hc] at he
  · intro hnone
    simp only [reapZombieByKillingParentBestEffort, hz]
    rcases hpp : getProcPpid o.ppidRead pid with _ | pp
    · simp
    · simp [hnone pp hpp]

/-- Witness for C7 at the zombie pid 9. -/
theorem C7_zombie_witness :
    (1 : Int) < 9 ∧ oracleZ.procState 9 = some "Z"
    ∧ killPidBestEffort oracleZ 9 1000 = []
    ∧ cleanupPidBestEffort oracleZ 9 1000 = (reapZombieByKillingParentBestEffort oracleZ 9).1 :=
  ⟨by decide, by decide,
    (C7_zombie oracleZ 9 1000 (by decide) (by decide)).1,
    (C7_zombie oracleZ 9 1000 (by decide) (by decide)).2.1⟩

/-- Helper: the client polling loop answers true only when some read of
    the published status (the final post-timeout read included) returned
    the target state. -/
theorem waitStateGo_some_poll (statusAt : Nat → GatewayState) (target : GatewayState)
    (t : Nat) :
    ∀ n i e, t - e ≤ n → waitStateGo statusAt target t i e = true →
      ∃ k, statusAt k = target := by
  intro n
  induction n with
  | zero =>
    intro i e hle h
    have he : ¬e < t := by omega
    rw [waitStateGo] at h
    simp only [he, dite_false, decide_eq_true_eq] at h
    exact ⟨i, h⟩
  | succ n ih =>
    intro i e hle h
    rw [waitStateGo] at h
    by_cases he : e < t
    · simp only [he, dite_true] at h
      by_cases hp : statusAt i = target
      · exact ⟨i, hp⟩
      · rw [if_neg hp] at h
        exact ih (i + 1) (e + 250) (by omega) h
    · simp only [he, dite_false, decide_eq_true_eq] at h
      exact ⟨i, h⟩

/-- C2 counterexample: with the persisted record at desired stopped but
    the lifecycle state already running, the in-process ensureRunning
    returns at its first check and leaves the state running, not stopped;
    and the file-based client, called with the control file at desired
    stopped, overwrites it to desired running and — once the process
    manager has spawned the gateway and published running — returns
    success with the system running, not stopped. -/
theorem C2_counterexample :
    ({ mgr := mgrRunning, file := fileStopped } : World).file.desired = .stopped
    ∧ (ensureRunning { mgr := mgrRunning, file := fileStopped } oracleA 0).1.mgr.state
        = .running
    ∧ (ensureRunning { mgr := mgrRunning, file := fileStopped } oracleA 0).1.mgr.state
        ≠ .stopped
    ∧ controlStopped.desired = .stopped
    ∧ (clientEnsureRunning controlStopped statusRunA "T").1.desired = Desired.running
    ∧ (clientEnsureRunning controlStopped statusRunA "T").2.2 = .ok := by
  refine ⟨by decide, by decide, by decide, rfl, rfl, ?_⟩
  have hw : waitForState statusRunA .running 60000 = true := by
    rw [waitForState, waitStateGo]
    simp [statusRunA]
  simp [clientEnsureRunning, hw]

/-- C2 amended: in the in-process engine, whenever the lifecycle state is
    not already running and the persisted record holds desired stopped,
    ensureRunning returns without any effect (in particular without
    spawning), clears the in-memory desired flag and leaves the state
    stopped.  The file-based client never honors a persisted stopped: its
    ensureRunning overwrites the control record to desired running
    whatever it held before, and returns success only after some status
    poll reported the gateway running. -/
theorem C2_amended (w : World) (o : Oracle) (tok : Nat)
    (prior : ControlState) (statusAt : Nat → GatewayState) (nowIso : String)
    (hr : w.mgr.state ≠ .running) (hd : w.file.desired = .stopped)
    (hprior : prior.desired = .stopped) :
    (ensureRunning w o tok).2.1 = []
    ∧ (ensureRunning w o tok).2.2 = .ok
    ∧ (ensureRunning w o tok).1.mgr.state = .stopped
    ∧ (ensureRunning w o tok).1.mgr.desired = false
    ∧ (clientEnsureRunning prior statusAt nowIso).2.1
        = [ClientEffect.controlWrite (writeControl nowIso Desired.running)]
    ∧ (clientEnsureRunning prior statusAt nowIso).1.desired = Desired.running
    ∧ ((clientEnsureRunning prior statusAt nowIso).2.2 = .ok →
        ∃ k, statusAt k = .running) := by
  have hengine : (ensureRunning w o tok).2.1 = []
      ∧ (ensureRunning w o tok).2.2 = .ok
      ∧ (ensureRunning w o tok).1.mgr.state = .stopped
      ∧ (ensureRunning w o tok).1.mgr.desired = false := by
    by_cases hst : w.mgr.stopTok.isSome
    · simp [ensureRunning, hr, hst, stopFinal, hd]
    · simp [ensureRunning, hr, hst, hd]
  refine ⟨hengine.1, hengine.2.1, hengine.2.2.1, hengine.2.2.2, rfl, rfl, ?_⟩
  intro hok
  simp only [clientEnsureRunning] at hok
  by_cases hw : waitForState statusAt .running 60000 = true
  · exact waitStateGo_some_poll statusAt .running 60000 60000 0 0 (by omega) hw
  · simp [hw] at hok

/-- Witness for C2 amended at a stopped manager with persisted desired
    stopped and a control file at desired stopped. -/
theorem C2_amended_witness :
    mgrA.state ≠ .running ∧ fileStopped.desired = .stopped
    ∧ controlStopped.desired = .stopped
    ∧ (ensureRunning { mgr := mgrA, file := fileStopped } oracleA 0).1.mgr.state
        = .stopped
    ∧ (clientEnsureRunning controlStopped statusRunA "T").1.desired = Desired.running :=
  ⟨by decide, rfl, rfl,
    (C2_amended { mgr := mgrA, file := fileStopped } oracleA 0 controlStopped
      statusRunA "T" (by decide) rfl rfl).2.2.1,
    (C2_amended { mgr := mgrA, file := fileStopped } oracleA 0 controlStopped
      statusRunA "T" (by decide) rfl rfl).2.2.2.2.2.1⟩

/-- C5 counterexample: with a stop in flight (stop has run its synchronous
    entry, the handle not yet cleared), start() returns immediately as a
    no-op: the stop is still in flight afterwards, the state is still
    stopping and nothing was spawned — it does not wait for the stop to
    finish and then start. -/
theorem C5_counterexample :
    (stopEnter worldRun42 oracleA 0).mgr.stopTok = some 0
    ∧ (start (stopEnter worldRun42 oracleA 0) oracleA 1).2.2 = .noop
    ∧ (start (stopEnter worldRun42 oracleA 0) oracleA 1).1.mgr.stopTok = some 0
    ∧ (start (stopEnter worldRun42 oracleA 0) oracleA 1).1.mgr.state = .stopping
    ∧ (start (stopEnter worldRun42 oracleA 0) oracleA 1).2.1
        = [Effect.startCall 1,
           Effect.persistWrite { desired := .running, pid := some 42, updatedAt := "T" }] := by
  decide

/-- Helper: the spawn phase always records a spawn of the primary command. -/
theorem spawn_primary_mem_startSpawn (w : World) (o : Oracle) :
    Effect.spawn .primary ∈ (startSpawn w o).2 := by
  simp only [startSpawn]
  rcases o.spawnPid with _ | pid
  · by_cases hf : o.spawnPrimaryFails <;> simp [hf]
  · by_cases hz : pid = 0 <;> by_cases hf : o.spawnPrimaryFails <;> simp [hf, hz]

/-- Helper: the stop finalizer does not touch the starting promise. -/
theorem stopFinal_startingTok (w : World) (o : Oracle) :
    (stopFinal w o).mgr.startingTok = w.mgr.startingTok := by
  simp [stopFinal]

/-- Helper: awaiting an in-flight stop does not touch the starting promise. -/
theorem startAwaited_startingTok (w : World) (o : Oracle) :
    (startAwaited w o).mgr.startingTok = w.mgr.startingTok := by
  unfold startAwaited
  split <;> simp [stopFinal, startPre]

/-- Helper: after awaiting any in-flight stop, no stop is in flight. -/
theorem startAwaited_stopTok (w : World) (o : Oracle) (h : w.mgr.stopTok.isSome) :
    (startAwaited w o).mgr.stopTok = none := by
  unfold startAwaited
  have : (startPre w o).mgr.stopTok.isSome := by simpa [startPre] using h
  simp [this, stopFinal]

/-- Helper: the start body does not touch the stop promise. -/
theorem startBody_stopTok (w : World) (o : Oracle) :
    (startBody w o).1.mgr.stopTok = w.mgr.stopTok := by
  simp only [startBody, startCleanupExisting, startSpawn]
  repeat' split
  all_goals simp

/-- C5 amended: start() is a no-op without spawn when a handle exists; with
    no handle and no stop in flight it joins an in-flight start without
    spawning; with no handle, a stop in flight and no start in flight it
    waits for the stop (the returned world shows it completed) and then
    performs the spawn. -/
theorem C5_amended (w : World) (o : Oracle) (tok t : Nat) :
    (w.mgr.proc.isSome →
      (start w o tok).2.2 = .noop
      ∧ (start w o tok).1.mgr.proc = w.mgr.proc
      ∧ (start w o tok).1.mgr.state = w.mgr.state
      ∧ (∀ c, Effect.spawn c ∉ (start w o tok).2.1))
    ∧ (w.mgr.proc = none → w.mgr.stopTok = none → w.mgr.startingTok = some t →
      (start w o tok).2.2 = .joined t
      ∧ (∀ c, Effect.spawn c ∉ (start w o tok).2.1))
    ∧ (w.mgr.proc = none → w.mgr.stopTok.isSome → w.mgr.startingTok = none →
      (start w o tok).2.2 = .completed tok
      ∧ (start w o tok).1.mgr.stopTok = none
      ∧ Effect.spawn .primary ∈ (start w o tok).2.1) := by
  refine ⟨?_, ?_, ?_⟩
  · intro hp
    simp [start, startPre, hp]
  · intro hp hstop hstarting
    simp [start, startPre, startAwaited, hp, hstop, hstarting]
  · intro hp hstop hstarting
    have hpre : ¬(startPre w o).mgr.proc.isSome := by simp [startPre, hp]
    have hawait : (startAwaited w o).mgr.startingTok = none := by
      rw [startAwaited_startingTok]; exact hstarting
    refine ⟨?_, ?_, ?_⟩
    · simp [start, hpre, hawait]
    · simp only [start, hpre, hawait, Bool.false_eq_true, if_false]
      simp only [startBody_stopTok]
      rw [show (startRun w o tok).mgr.stopTok = none from by
        simp [startRun, startAwaited_stopTok w o hstop]]
    · simp only [start, hpre, hawait, Bool.false_eq_true, if_false]
      refine List.mem_append.mpr (Or.inr ?_)
      simp only [startBody]
      exact List.mem_append.mpr (Or.inr (spawn_primary_mem_startSpawn _ _))

/-- Witness for C5 amended: a running handle makes start a spawn-free
    no-op. -/
theorem C5_amended_witness :
    worldRun42.mgr.proc.isSome = true
    ∧ (start worldRun42 oracleA 3).2.2 = .noop :=
  ⟨rfl, ((C5_amended worldRun42 oracleA 3 0).1 (by decide)).1⟩

/-! ## Trace bookkeeping helpers. -/

theorem noMark_of_sig (e : Effect) (h : isSignal e = true) : noMark e = true := by
  cases e <;> simp_all [isSignal, noMark]

theorem countStartCalls_append (a b : List Effect) :
    countStartCalls (a ++ b) = countStartCalls a + countStartCalls b := by
  simp [countStartCalls, List.filter_append]

theorem countStartCalls_eq_zero {l : List Effect}
    (h : ∀ e ∈ l, noMark e = true) : countStartCalls l = 0 := by
  simp only [countStartCalls, List.length_eq_zero, List.filter_eq_nil]
  intro e he
  have := h e he
  cases e <;> simp_all [noMark, isStartCallB]

theorem ready_not_mem_of_noMark {l : List Effect}
    (h : ∀ e ∈ l, noMark e = true) : Effect.readyConfirmed ∉ l := by
  intro hmem
  have := h _ hmem
  simp [noMark] at this

theorem sig_killPid (o : Oracle) (pid : Int) (t : Nat) :
    ∀ e ∈ killPidBestEffort o pid t, isSignal e = true := by
  intro e he
  simp only [killPidBestEffort] at he
  repeat' split at he
  all_goals simp at he
  all_goals first
    | (rcases he with rfl | rfl | rfl | rfl <;> rfl)
    | (rcases he with rfl | rfl | rfl <;> rfl)
    | (rcases he with rfl | rfl <;> rfl)
    | (subst he; rfl)

theorem sig_reap (o : Oracle) (z : Int) :
    ∀ e ∈ (reapZombieByKillingParentBestEffort o z).1, isSignal e = true := by
  intro e he
  simp only [reapZombieByKillingParentBestEffort] at he
  repeat' split at he
  all_goals simp at he
  all_goals first
    | (rcases he with rfl | rfl <;> rfl)
    | (subst he; rfl)

theorem sig_cleanup (o : Oracle) (pid : Int) (t : Nat) :
    ∀ e ∈ cleanupPidBestEffort o pid t, isSignal e = true := by
  intro e he
  simp only [cleanupPidBestEffort] at he
  split at he
  · simp at he
  · split at he
    · exact sig_reap o pid e he
    · rw [List.mem_append] at he
      rcases he with he | he
      · exact sig_killPid o pid t e he
      · split at he
        · exact sig_reap o pid e he
        · simp at he

theorem sig_clearLock (o : Oracle) (pid : Int) :
    ∀ e ∈ clearLockPidBestEffort o pid, isSignal e = true := by
  intro e he
  simp only [clearLockPidBestEffort] at he
  split at he
  · simp at he
  · split at he
    · simp at he
      subst he
      rfl
    · simp only [List.mem_cons] at he
      rcases he with rfl | he
      · rfl
      · split at he
        · exact sig_reap o pid e he
        · exact sig_killPid o pid 30000 e he

theorem noMark_cleanupExist (w : World) (o : Oracle) :
    ∀ e ∈ (startCleanupExisting w o).2, noMark e = true := by
  intro e he
  rcases hf : w.file.pid with _ | existingPid
  · simp [startCleanupExisting, hf] at he
  · simp only [startCleanupExisting, hf] at he
    split at he
    · simp at he
    · rw [List.mem_append] at he
      rcases he with he | he
      · split at he
        · simp at he
          subst he
          rfl
        · simp only [List.mem_cons] at he
          rcases he with rfl | he
          · rfl
          · split at he
            · exact noMark_of_sig e (sig_cleanup o existingPid 15000 e he)
            · simp at he
      · simp at he
        subst he
        rfl

theorem noMark_startSpawn (w : World) (o : Oracle) :
    ∀ e ∈ (startSpawn w o).2, noMark e = true := by
  intro e he
  simp only [startSpawn] at he
  repeat' split at he
  all_goals simp at he
  all_goals first
    | (rcases he with rfl | rfl | rfl <;> rfl)
    | (rcases he with rfl | rfl <;> rfl)
    | (subst he; rfl)

theorem noMark_startBody (w : World) (o : Oracle) :
    ∀ e ∈ (startBody w o).2, noMark e = true := by
  intro e he
  simp only [startBody] at he
  rw [List.mem_append] at he
  rcases he with he | he
  · exact noMark_cleanupExist _ o e he
  · exact noMark_startSpawn _ o e he

/-- Every start() call records exactly one start marker in its trace. -/
theorem countStartCalls_start (w : World) (o : Oracle) (tok : Nat) :
    countStartCalls (start w o tok).2.1 = 1 := by
  have hbody : ∀ w2, countStartCalls (startBody w2 o).2 = 0 :=
    fun w2 => countStartCalls_eq_zero (noMark_startBody w2 o)
  by_cases hp : (startPre w o).mgr.proc.isSome
  · simp [start, hp, countStartCalls, isStartCallB]
  · rcases hts : (startAwaited w o).mgr.startingTok with _ | t
    · simp [start, hp, hts, countStartCalls_append, hbody, countStartCalls, isStartCallB]
      intro a ha
      have := noMark_startBody _ o a ha
      cases a <;> simp_all [noMark]
    · simp [start, hp, hts, countStartCalls, isStartCallB]

/-- A start() trace never contains a readiness confirmation. -/
theorem ready_not_mem_start (w : World) (o : Oracle) (tok : Nat) :
    Effect.readyConfirmed ∉ (start w o tok).2.1 := by
  have hbody : ∀ w2, Effect.readyConfirmed ∉ (startBody w2 o).2 :=
    fun w2 => ready_not_mem_of_noMark (noMark_startBody w2 o)
  by_cases hp : (startPre w o).mgr.proc.isSome
  · simp [start, hp]
  · rcases hts : (startAwaited w o).mgr.startingTok with _ | t
    · simp [start, hp, hts, hbody]
    · simp [start, hp, hts]

/-- When the spawn allocated a nonzero pid, the spawn phase persists it. -/
theorem persist_pid_mem_startSpawn (w : World) (o : Oracle) (pid : Int)
    (hs : o.spawnPid = some pid) (hz : pid ≠ 0) :
    ∃ f, Effect.persistWrite f ∈ (startSpawn w o).2 ∧ f.pid = some pid := by
  refine ⟨{ w.file with desired := Desired.running, pid := some pid, updatedAt := o.nowIso },
    ?_, rfl⟩
  simp [startSpawn, hs, hz]

/-- When the spawn allocated a nonzero pid, the start body persists it. -/
theorem persist_pid_mem_startBody (w : World) (o : Oracle) (pid : Int)
    (hs : o.spawnPid = some pid) (hz : pid ≠ 0) :
    ∃ f, Effect.persistWrite f ∈ (startBody w o).2 ∧ f.pid = some pid := by
  obtain ⟨f, hf, hfp⟩ := persist_pid_mem_startSpawn
    (startCleanupExisting
      { w with
          mgr :=
            { w.mgr with
                state := .starting
                lastError := none
                startedAt := some o.nowIso
                readyAt := none } } o).1 o pid hs hz
  exact ⟨f, by simp only [startBody]; exact List.mem_append.mpr (Or.inr hf), hfp⟩

/-- A start() trace containing a spawn also persists the spawned pid. -/
theorem spawn_mem_start_persist (w : World) (o : Oracle) (tok : Nat) (pid : Int)
    (hs : o.spawnPid = some pid) (hz : pid ≠ 0) (c : SpawnCmd)
    (hmem : Effect.spawn c ∈ (start w o tok).2.1) :
    ∃ f, Effect.persistWrite f ∈ (start w o tok).2.1 ∧ f.pid = some pid := by
  by_cases hp : (startPre w o).mgr.proc.isSome
  · simp [start, hp] at hmem
  · rcases hts : (startAwaited w o).mgr.startingTok with _ | t
    · obtain ⟨f, hf, hfp⟩ := persist_pid_mem_startBody (startRun w o tok) o pid hs hz
      refine ⟨f, ?_, hfp⟩
      simp only [start, hp, hts, Bool.false_eq_true, if_false]
      exact List.mem_append.mpr (Or.inr hf)
    · simp [start, hp, hts] at hmem

theorem countStartCalls_clearLock (o : Oracle) (p : Int) :
    countStartCalls (clearLockPidBestEffort o p) = 0 :=
  countStartCalls_eq_zero (fun e he => noMark_of_sig e (sig_clearLock o p e he))

theorem countStartCalls_lockRecovery (o : Oracle) (lp : Option Int) :
    countStartCalls (lockRecoveryEffects o lp) = 0 := by
  rcases lp with _ | l
  · rfl
  · by_cases hz : l = 0
    · simp [lockRecoveryEffects, hz, countStartCalls]
    · simpa [lockRecoveryEffects, hz] using countStartCalls_clearLock o l

theorem countStartCalls_probe_cons (b : Bool) (l : List Effect) :
    countStartCalls (Effect.probe b :: l) = countStartCalls l := by
  simp [countStartCalls, isStartCallB]

theorem countStartCalls_persist_singleton (f : PersistedGatewayState) :
    countStartCalls [Effect.persistWrite f] = 0 := rfl

theorem countStartCalls_ready_singleton :
    countStartCalls [Effect.readyConfirmed] = 0 := rfl

theorem countStartCalls_persist_cons (f : PersistedGatewayState) (l : List Effect) :
    countStartCalls (Effect.persistWrite f :: l) = countStartCalls l := by
  simp [countStartCalls, isStartCallB]

theorem stopFinal_file_desired (w : World) (o : Oracle) :
    (stopFinal w o).file.desired = w.file.desired := by
  simp [stopFinal]

/-- With the first readiness wait failed and no lock signature in the
    captured output, the retry loop throws after a single start attempt. -/
theorem ensureAttempts_noLock (w : World) (o : Oracle) (tok : Nat)
    (h0 : o.waitForReadyOk 0 = false) (hl : looksLikeLock o.failOutput = false) :
    (ensureAttempts w o tok).2.2 = .errored
    ∧ countStartCalls (ensureAttempts w o tok).2.1 = 1 := by
  constructor
  · simp [ensureAttempts, h0, hl]
  · simp [ensureAttempts, h0, hl, countStartCalls_start]

/-- With the first readiness wait failed and a lock signature in the
    captured output, the loop clears the persisted pid and retries start
    exactly once; a second failure throws, a second success returns. -/
theorem ensureAttempts_lock (w : World) (o : Oracle) (tok : Nat)
    (h0 : o.waitForReadyOk 0 = false) (hl : looksLikeLock o.failOutput = true) :
    countStartCalls (ensureAttempts w o tok).2.1 = 2
    ∧ (∃ f, Effect.persistWrite f ∈ (ensureAttempts w o tok).2.1 ∧ f.pid = none)
    ∧ (o.waitForReadyOk 1 = false → (ensureAttempts w o tok).2.2 = .errored)
    ∧ (o.waitForReadyOk 1 = true → (ensureAttempts w o tok).2.2 = .ok) := by
  refine ⟨?_, ?_, ?_, ?_⟩
  · by_cases h1 : o.waitForReadyOk 1 = true <;>
      simp [ensureAttempts, h0, hl, h1, countStartCalls_append, countStartCalls_start,
        countStartCalls_lockRecovery, countStartCalls_persist_singleton,
        countStartCalls_ready_singleton, countStartCalls_persist_cons]
  · refine ⟨{ (start w o tok).1.file with pid := none, updatedAt := o.nowIso }, ?_, rfl⟩
    by_cases h1 : o.waitForReadyOk 1 = true <;> simp [ensureAttempts, h0, hl, h1]
  · intro h1
    simp [ensureAttempts, h0, hl, h1]
  · intro h1
    simp [ensureAttempts, h0, hl, h1]

/-- C8 counterexample: a first start attempt that times out waiting for
    readiness with no lock signature in the captured output is not retried:
    ensureRunning throws after exactly one start invocation and no
    lock-recovery is applied. -/
theorem C8_counterexample :
    oracleA.waitForReadyOk 0 = false
    ∧ looksLikeLock oracleA.failOutput = false
    ∧ (ensureRunning { mgr := mgrA, file := fileA } oracleA 0).2.2 = .errored
    ∧ countStartCalls (ensureRunning { mgr := mgrA, file := fileA } oracleA 0).2.1 = 1 := by
  decide

/-- C8 amended: after a first readiness timeout, the lock-recovery path and
    the single retry happen only when the captured output matches a
    lock-contention signature; in that case the persisted pid record is
    cleared, start runs exactly twice in total, and a second failure
    raises the fatal error (no further retries). Without the signature the
    fatal error is raised immediately after the single attempt. -/
theorem C8_amended (w : World) (o : Oracle) (tok : Nat)
    (hr : w.mgr.state ≠ .running) (hd : w.file.desired ≠ .stopped)
    (hc : o.canConnect250 = false) (h0 : o.waitForReadyOk 0 = false) :
    (looksLikeLock o.failOutput = false →
      (ensureRunning w o tok).2.2 = .errored
      ∧ countStartCalls (ensureRunning w o tok).2.1 = 1)
    ∧ (looksLikeLock o.failOutput = true →
      countStartCalls (ensureRunning w o tok).2.1 = 2
      ∧ (∃ f, Effect.persistWrite f ∈ (ensureRunning w o tok).2.1 ∧ f.pid = none)
      ∧ (o.waitForReadyOk 1 = false → (ensureRunning w o tok).2.2 = .errored)) := by
  have hred : (ensureRunning w o tok).2.1
      = Effect.probe o.canConnect250 ::
          (ensureAttempts (if w.mgr.stopTok.isSome then stopFinal w o else w) o tok).2.1
    ∧ (ensureRunning w o tok).2.2
      = (ensureAttempts (if w.mgr.stopTok.isSome then stopFinal w o else w) o tok).2.2 := by
    by_cases hst : w.mgr.stopTok.isSome
    · constructor <;> simp [ensureRunning, hr, hst, stopFinal_file_desired, hd, hc]
    · constructor <;> simp [ensureRunning, hr, hst, hd, hc]
  obtain ⟨htr, hres⟩ := hred
  constructor
  · intro hl
    have h := ensureAttempts_noLock (if w.mgr.stopTok.isSome then stopFinal w o else w)
      o tok h0 hl
    refine ⟨?_, ?_⟩
    · rw [hres]
      exact h.1
    · rw [htr, countStartCalls_probe_cons]
      exact h.2
  · intro hl
    have h := ensureAttempts_lock (if w.mgr.stopTok.isSome then stopFinal w o else w)
      o tok h0 hl
    refine ⟨?_, ?_, ?_⟩
    · rw [htr, countStartCalls_probe_cons]
      exact h.1
    · obtain ⟨f, hf, hfp⟩ := h.2.1
      refine ⟨f, ?_, hfp⟩
      rw [htr]
      exact List.mem_cons_of_mem _ hf
    · intro h1
      rw [hres]
      exact h.2.2.1 h1

/-- Witness for C8 amended, noLock branch, at a fresh world. -/
theorem C8_amended_witness :
    looksLikeLock oracleA.failOutput = false
    ∧ (ensureRunning { mgr := mgrA, file := fileA } oracleA 7).2.2 = .errored
    ∧ countStartCalls (ensureRunning { mgr := mgrA, file := fileA } oracleA 7).2.1 = 1 :=
  ⟨by decide,
    ((C8_amended { mgr := mgrA, file := fileA } oracleA 7
        (by decide) (by decide) rfl rfl).1 (by decide)).1,
    ((C8_amended { mgr := mgrA, file := fileA } oracleA 7
        (by decide) (by decide) rfl rfl).1 (by decide)).2⟩

/-- Helper: an element of a signal-only list is never a spawn or a
    readiness confirmation. -/
theorem not_mem_of_sig {l : List Effect} (h : ∀ e ∈ l, isSignal e = true)
    {e : Effect} (hns : isSignal e = false) : e ∉ l :=
  fun hm => by simp [h e hm] at hns

/-- Helper: splitting a list xs ++ [a] at its unique occurrence of a. -/
theorem append_singleton_eq {α : Type} {a : α} :
    ∀ {xs l1 l2 : List α}, a ∉ xs → xs ++ [a] = l1 ++ a :: l2 → l1 = xs ∧ l2 = [] := by
  intro xs
  induction xs with
  | nil =>
    intro l1 l2 _ h
    rcases l1 with _ | ⟨y, l1t⟩
    · simp at h
      exact ⟨rfl, h⟩
    · simp only [List.nil_append, List.cons_append] at h
      injection h with h1 h2
      exact absurd h2 (by simp)
  | cons x xt ih =>
    intro l1 l2 hnm h
    rcases l1 with _ | ⟨y, l1t⟩
    · simp only [List.cons_append, List.nil_append] at h
      injection h with h1 h2
      exact absurd (h1 ▸ List.mem_cons_self x xt) hnm
    · simp only [List.cons_append] at h
      injection h with h1 h2
      have hnm2 : a ∉ xt := fun hmem => hnm (List.mem_cons_of_mem _ hmem)
      obtain ⟨hl, hr⟩ := ih hnm2 h2
      exact ⟨by rw [h1, hl], hr⟩

/-- Helper: the head of every start() trace is the start marker followed by
    the desired-running persist. -/
theorem start_trace_head (w : World) (o : Oracle) (tok : Nat) :
    ∃ rest, (start w o tok).2.1
      = Effect.startCall tok :: Effect.persistWrite (startPre w o).file :: rest := by
  by_cases hp : (startPre w o).mgr.proc.isSome
  · exact ⟨[], by simp [start, hp]⟩
  · rcases hts : (startAwaited w o).mgr.startingTok with _ | t
    · exact ⟨(startBody (startRun w o tok) o).2, by simp [start, hp, hts]⟩
    · exact ⟨[], by simp [start, hp, hts]⟩

/-- Helper: lock recovery never confirms readiness. -/
theorem ready_not_mem_lockRecovery (o : Oracle) (lp : Option Int) :
    Effect.readyConfirmed ∉ lockRecoveryEffects o lp := by
  rcases lp with _ | l
  · simp [lockRecoveryEffects]
  · by_cases hz : l = 0
    · simp [lockRecoveryEffects, hz]
    · simp only [lockRecoveryEffects, hz, if_false]
      exact not_mem_of_sig (sig_clearLock o l) rfl

/-- Helper: lock recovery never spawns. -/
theorem spawn_not_mem_lockRecovery (o : Oracle) (lp : Option Int) (c : SpawnCmd) :
    Effect.spawn c ∉ lockRecoveryEffects o lp := by
  rcases lp with _ | l
  · simp [lockRecoveryEffects]
  · by_cases hz : l = 0
    · simp [lockRecoveryEffects, hz]
    · simp only [lockRecoveryEffects, hz, if_false]
      exact not_mem_of_sig (sig_clearLock o l) rfl

/-- C6: every start() trace begins with the start marker and the persisted
    desired-running write, so the write precedes every spawn and every
    signal of the same call; and in the retry loop, whenever a spawn
    happened before a readiness confirmation, a persist of the spawned pid
    also happened before it. -/
theorem C6_ordering (w : World) (o : Oracle) (tok : Nat) (pid : Int)
    (hs : o.spawnPid = some pid) (hz : pid ≠ 0) :
    (∃ rest, (start w o tok).2.1
      = Effect.startCall tok :: Effect.persistWrite (startPre w o).file :: rest)
    ∧ (∀ l1 e l2, (start w o tok).2.1 = l1 ++ e :: l2 →
        ((∃ c, e = Effect.spawn c) ∨ (∃ tg, e = Effect.sigterm tg)
          ∨ (∃ tg, e = Effect.sigkill tg)) →
        ∃ f, Effect.persistWrite f ∈ l1 ∧ f.desired = Desired.running)
    ∧ (∀ l1 l2, (ensureAttempts w o tok).2.1 = l1 ++ Effect.readyConfirmed :: l2 →
        (∃ c, Effect.spawn c ∈ l1) →
        ∃ f, Effect.persistWrite f ∈ l1 ∧ f.pid = some pid) := by
  refine ⟨start_trace_head w o tok, ?_, ?_⟩
  · intro l1 e l2 hsplit he
    obtain ⟨rest, hhead⟩ := start_trace_head w o tok
    rw [hhead] at hsplit
    rcases l1 with _ | ⟨x, l1t⟩
    · simp only [List.nil_append] at hsplit
      injection hsplit with h1 _
      rcases he with ⟨c, rfl⟩ | ⟨tg, rfl⟩ | ⟨tg, rfl⟩ <;> exact Effect.noConfusion h1
    · rcases l1t with _ | ⟨y, l1tt⟩
      · simp only [List.cons_append, List.nil_append] at hsplit
        injection hsplit with h1 h2
        injection h2 with h2a _
        rcases he with ⟨c, rfl⟩ | ⟨tg, rfl⟩ | ⟨tg, rfl⟩ <;> exact Effect.noConfusion h2a
      · simp only [List.cons_append] at hsplit
        injection hsplit with h1 h2
        injection h2 with h2a _
        refine ⟨(startPre w o).file, ?_, by simp [startPre]⟩
        exact List.mem_cons_of_mem _ (h2a ▸ List.mem_cons_self _ _)
  · intro l1 l2 hsplit hspawn
    by_cases h0 : o.waitForReadyOk 0 = true
    · have htr : (ensureAttempts w o tok).2.1
          = (start w o tok).2.1 ++ [Effect.readyConfirmed] := by
        simp [ensureAttempts, h0]
      rw [htr] at hsplit
      obtain ⟨hl1, _⟩ := append_singleton_eq (ready_not_mem_start w o tok) hsplit
      obtain ⟨c, hc⟩ := hspawn
      rw [hl1] at hc
      obtain ⟨f, hf, hfp⟩ := spawn_mem_start_persist w o tok pid hs hz c hc
      exact ⟨f, hl1 ▸ hf, hfp⟩
    · by_cases hlk : looksLikeLock o.failOutput = true
      · by_cases h1 : o.waitForReadyOk 1 = true
        · have htr : (ensureAttempts w o tok).2.1
              = ((start w o tok).2.1
                  ++ lockRecoveryEffects o
                      (lockPidChoice o o.failOutput (start w o tok).1.file.pid)
                  ++ [Effect.persistWrite
                        { (start w o tok).1.file with pid := none, updatedAt := o.nowIso }]
                  ++ (start { (start w o tok).1 with
                        file := { (start w o tok).1.file with
                                    pid := none, updatedAt := o.nowIso } } o (tok + 1)).2.1)
                ++ [Effect.readyConfirmed] := by
            simp [ensureAttempts, h0, hlk, h1, List.append_assoc]
          have hnm : Effect.readyConfirmed ∉
              ((start w o tok).2.1
                ++ lockRecoveryEffects o
                    (lockPidChoice o o.failOutput (start w o tok).1.file.pid)
                ++ [Effect.persistWrite
                      { (start w o tok).1.file with pid := none, updatedAt := o.nowIso }]
                ++ (start { (start w o tok).1 with
                      file := { (start w o tok).1.file with
                                  pid := none, updatedAt := o.nowIso } } o (tok + 1)).2.1) := by
            intro hmem
            rcases List.mem_append.mp hmem with hmem | hmem
            · rcases List.mem_append.mp hmem with hmem | hmem
              · rcases List.mem_append.mp hmem with hmem | hmem
                · exact ready_not_mem_start w o tok hmem
                · exact ready_not_mem_lockRecovery o _ hmem
              · simp at hmem
            · exact ready_not_mem_start _ o (tok + 1) hmem
          rw [htr] at hsplit
          obtain ⟨hl1, _⟩ := append_singleton_eq hnm hsplit
          obtain ⟨c, hc⟩ := hspawn
          rw [hl1] at hc
          rcases List.mem_append.mp hc with hc2 | hc2
          · rcases List.mem_append.mp hc2 with hc3 | hc3
            · rcases List.mem_append.mp hc3 with hc4 | hc4
              · obtain ⟨f, hf, hfp⟩ := spawn_mem_start_persist w o tok pid hs hz c hc4
                refine ⟨f, hl1 ▸ ?_, hfp⟩
                exact List.mem_append.mpr (Or.inl (List.mem_append.mpr
                  (Or.inl (List.mem_append.mpr (Or.inl hf)))))
              · exact absurd hc4 (spawn_not_mem_lockRecovery o _ c)
            · simp at hc3
          · obtain ⟨f, hf, hfp⟩ := spawn_mem_start_persist _ o (tok + 1) pid hs hz c hc2
            refine ⟨f, hl1 ▸ ?_, hfp⟩
            exact List.mem_append.mpr (Or.inr hf)
        · have htr : (ensureAttempts w o tok).2.1
              = (start w o tok).2.1
                  ++ lockRecoveryEffects o
                      (lockPidChoice o o.failOutput (start w o tok).1.file.pid)
                  ++ [Effect.persistWrite
                        { (start w o tok).1.file with pid := none, updatedAt := o.nowIso }]
                  ++ (start { (start w o tok).1 with
                        file := { (start w o tok).1.file with
                                    pid := none, updatedAt := o.nowIso } } o (tok + 1)).2.1 := by
            simp [ensureAttempts, h0, hlk, h1, List.append_assoc]
          have hmem : Effect.readyConfirmed ∈ (ensureAttempts w o tok).2.1 := by
            rw [hsplit]
            simp
          rw [htr] at hmem
          rcases List.mem_append.mp hmem with hmem | hmem
          · rcases List.mem_append.mp hmem with hmem | hmem
            · rcases List.mem_append.mp hmem with hmem | hmem
              · exact absurd hmem (ready_not_mem_start w o tok)
              · exact absurd hmem (ready_not_mem_lockRecovery o _)
            · simp at hmem
          · exact absurd hmem (ready_not_mem_start _ o (tok + 1))
      · have htr : (ensureAttempts w o tok).2.1 = (start w o tok).2.1 := by
          simp [ensureAttempts, h0, hlk]
        have hmem : Effect.readyConfirmed ∈ (ensureAttempts w o tok).2.1 := by
          rw [hsplit]
          simp
        rw [htr] at hmem
        exact absurd hmem (ready_not_mem_start w o tok)

/-- Witness input for C6. -/
theorem C6_ordering_witness :
    oracleA.spawnPid = some 42 ∧
      ∃ rest, (start { mgr := mgrA, file := fileA } oracleA 0).2.1
        = Effect.startCall 0 ::
          Effect.persistWrite (startPre { mgr := mgrA, file := fileA } oracleA).file :: rest :=
  ⟨rfl, (C6_ordering { mgr := mgrA, file := fileA } oracleA 0 42 rfl (by decide)).1⟩

/-- Helper: once the canConnect promise is resolved and the socket
    destroyed, further events change neither. -/
theorem probe_foldl_keep (l : List SocketEvent) :
    ∀ (st : ProbeOutcome) (b : Bool), st.resolved = some b → st.destroyed = true →
      (l.foldl probeStep st).resolved = some b ∧ (l.foldl probeStep st).destroyed = true := by
  induction l with
  | nil => intro st b h1 h2; exact ⟨h1, h2⟩
  | cons ev rest ih =>
    intro st b h1 h2
    have hstep : (probeStep st ev).resolved = some b ∧ (probeStep st ev).destroyed = true := by
      cases ev <;> simp [probeStep, probeDone, h1]
    exact ih (probeStep st ev) b hstep.1 hstep.2

/-- Helper: characterization of the waitForReady loop in terms of probe
    results and elapsed time. -/
theorem waitGo_true_iff (p : Nat → Bool) (d : Nat → Nat) (t : Nat) :
    ∀ n i e, t - e ≤ n →
      (waitGo p d t i e = true ↔ ∃ k, e + spanElapsed d i k < t ∧ p (i + k) = true) := by
  intro n
  induction n with
  | zero =>
    intro i e hle
    have he : ¬e < t := by omega
    rw [waitGo]
    simp only [he, dif_neg, not_false_iff]
    constructor
    · intro h
      exact absurd h (by simp)
    · rintro ⟨k, hk, _⟩
      omega
  | succ n ih =>
    intro i e hle
    by_cases he : e < t
    · rw [waitGo]
      simp only [he, dite_true]
      by_cases hp : p i = true
      · simp only [hp, if_true]
        constructor
        · intro _
          exact ⟨0, by simpa [spanElapsed] using he, by simpa using hp⟩
        · intro _
          trivial
      · have hp2 : p i = false := by simpa using hp
        simp only [hp2, Bool.false_eq_true, if_false]
        rw [ih (i + 1) (e + d i + 250) (by omega)]
        constructor
        · rintro ⟨k, hk, hpk⟩
          refine ⟨k + 1, ?_, ?_⟩
          · simp only [spanElapsed]
            omega
          · have : i + (k + 1) = i + 1 + k := by omega
            rw [this]
            exact hpk
        · rintro ⟨k, hk, hpk⟩
          rcases k with _ | k
          · exfalso
            simp only [Nat.add_zero] at hpk
            exact hp hpk
          · refine ⟨k, ?_, ?_⟩
            · simp only [spanElapsed] at hk
              omega
            · have : i + 1 + k = i + (k + 1) := by omega
              rw [this]
              exact hpk
    · have hle0 : t - e ≤ 0 := by omega
      rw [waitGo]
      simp only [he, dif_neg, not_false_iff]
      constructor
      · intro h
        exact absurd h (by simp)
      · rintro ⟨k, hk, _⟩
        omega

/-- C9: a probe resolves on its first socket event — true exactly when it
    is a connect — and always destroys the socket; waitForReady is true iff
    some probe executed within the total budget succeeds, hence false only
    once the budget is exhausted with every probe having failed. -/
theorem C9_probe (evs : List SocketEvent) (p : Nat → Bool) (d : Nat → Nat) (t : Nat)
    (hne : evs ≠ []) :
    (runProbe evs).destroyed = true
    ∧ (runProbe evs).resolved.isSome = true
    ∧ ((runProbe evs).resolved = some true ↔ evs.head? = some .connect)
    ∧ (waitForReady p d t = true ↔ ∃ k, elapsedBefore d k < t ∧ p k = true) := by
  rcases evs with _ | ⟨ev, rest⟩
  · exact absurd rfl hne
  · have hfirst : (probeStep probeInit ev).resolved
        = some (match ev with | .connect => true | _ => false)
        ∧ (probeStep probeInit ev).destroyed = true := by
      cases ev <;> simp [probeStep, probeDone, probeInit]
    have hkeep := probe_foldl_keep rest (probeStep probeInit ev) _ hfirst.1 hfirst.2
    have hrun : runProbe (ev :: rest) = rest.foldl probeStep (probeStep probeInit ev) := rfl
    refine ⟨?_, ?_, ?_, ?_⟩
    · rw [hrun]
      exact hkeep.2
    · rw [hrun, hkeep.1]
      rfl
    · rw [hrun, hkeep.1]
      cases ev <;> simp
    · have h := waitGo_true_iff p d t (t - 0) 0 0 (le_refl _)
      rw [waitForReady, h]
      constructor
      · rintro ⟨k, hk, hpk⟩
        exact ⟨k, by simpa [elapsedBefore] using hk, by simpa using hpk⟩
      · rintro ⟨k, hk, hpk⟩
        exact ⟨k, by simpa [elapsedBefore] using hk, by simpa using hpk⟩

/-- Witness for C9: a timeout event resolves the probe with the socket
    destroyed, and a second-probe success makes waitForReady true. -/
theorem C9_probe_witness :
    ([SocketEvent.timeout] ≠ ([] : List SocketEvent))
    ∧ (runProbe [SocketEvent.timeout]).destroyed = true
    ∧ waitForReady pB dB 1000 = true :=
  ⟨by decide,
    (C9_probe [SocketEvent.timeout] pB dB 1000 (by decide)).1,
    (C9_probe [SocketEvent.timeout] pB dB 1000 (by decide)).2.2.2.mpr
      ⟨1, by decide, rfl⟩⟩

/-- Helper: the desired computation of readPersistedState yields stopped
    only from the exact string value stopped. -/
theorem desired_of_match (x : Option JsValue)
    (h : (match x with
          | some (.vStr d) => if d = "stopped" then Desired.stopped else Desired.running
          | _ => Desired.running) = Desired.stopped) :
    x = some (.vStr "stopped") := by
  rcases x with _ | gv
  · exact Desired.noConfusion h
  · cases gv with
    | vNull => exact Desired.noConfusion h
    | vBool b => exact Desired.noConfusion h
    | vNum finite n => exact Desired.noConfusion h
    | vStr dstr =>
      have h2 : (if dstr = "stopped" then Desired.stopped else Desired.running)
          = Desired.stopped := h
      by_cases hds : dstr = "stopped"
      · rw [hds]
      · rw [if_neg hds] at h2
        exact Desired.noConfusion h2
    | vArr elems => exact Desired.noConfusion h
    | vObj fields => exact Desired.noConfusion h

/-- C10: reading the persisted desired-state record is total: missing,
    empty and unparsable contents all yield the default record with desired
    running and no pid; an all-digit file is read as a legacy pid-only
    record with desired running; consequently desired can only come out
    stopped from a well-parsed record whose desired field is the string
    stopped — never from a corrupted file. -/
theorem C10_readPersistedState (raw : Option String) (jsonParse : String → Option JsValue)
    (nowIso : String) :
    (raw = none → readPersistedState raw jsonParse nowIso = defaultPersistedState nowIso)
    ∧ (∀ s, raw = some s → jsTrim s = "" →
        readPersistedState raw jsonParse nowIso = defaultPersistedState nowIso)
    ∧ (∀ s, raw = some s → jsTrim s ≠ "" → ¬(jsTrim s).data.all (·.isDigit) = true →
        jsonParse (jsTrim s) = none →
        readPersistedState raw jsonParse nowIso = defaultPersistedState nowIso)
    ∧ (∀ s, raw = some s → jsTrim s ≠ "" → (jsTrim s).data.all (·.isDigit) = true →
        (readPersistedState raw jsonParse nowIso).desired = Desired.running
        ∧ (readPersistedState raw jsonParse nowIso).pid
            = (if ((digitsToNat (jsTrim s).data : Int) < 2 ^ 1024)
                then some ((digitsToNat (jsTrim s).data : Int)) else none))
    ∧ ((readPersistedState raw jsonParse nowIso).desired = Desired.stopped →
        ∃ s v, raw = some s ∧ jsonParse (jsTrim s) = some v
          ∧ getField v "desired" = some (.vStr "stopped")) := by
  refine ⟨?_, ?_, ?_, ?_, ?_⟩
  · intro h
    subst h
    rfl
  · intro s hs ht
    subst hs
    simp [readPersistedState, ht]
  · intro s hs ht hd hj
    subst hs
    simp [readPersistedState, ht, hd, hj]
  · intro s hs ht hd
    subst hs
    constructor <;> simp [readPersistedState, ht, hd, defaultPersistedState]
  · intro hstop
    rcases raw with _ | s
    · simp [readPersistedState, defaultPersistedState] at hstop
    · by_cases ht : jsTrim s = ""
      · simp [readPersistedState, ht, defaultPersistedState] at hstop
      · by_cases hd : (jsTrim s).data.all (·.isDigit) = true
        · simp [readPersistedState, ht, hd, defaultPersistedState] at hstop
        · rcases hj : jsonParse (jsTrim s) with _ | v
          · simp [readPersistedState, ht, hd, hj, defaultPersistedState] at hstop
          · refine ⟨s, v, rfl, hj, ?_⟩
            apply desired_of_match
            simpa [readPersistedState, ht, hd, hj] using hstop

/-- Witness for C10 at a missing file, a digits-only file and an
    unparsable file. -/
theorem C10_readPersistedState_witness :
    readPersistedState none parse0 "T" = defaultPersistedState "T"
    ∧ (readPersistedState (some "123") parse0 "T").desired = Desired.running
    ∧ readPersistedState (some "not json") parse0 "T" = defaultPersistedState "T" :=
  ⟨(C10_readPersistedState none parse0 "T").1 rfl,
    ((C10_readPersistedState (some "123") parse0 "T").2.2.2.1 "123" rfl
      (by decide) (by decide)).1,
    (C10_readPersistedState (some "not json") parse0 "T").2.2.1 "not json" rfl
      (by decide) (by decide) rfl⟩

end OpenClaw
